import Mathlib

set_option maxRecDepth 4000
set_option maxHeartbeats 1000000

/-!
Shallow embedding of the Nova voice-assistant core
(`nova/voice_recognition.py`, `nova/command_processor.py`,
`nova/assistant.py`, `nova/response_generator.py`).

Python strings are modelled as `List Char`; Python `str.lower()`,
`str.strip()`, `str.startswith`, `in` become `toLowerStr`, `trim`,
`List.isPrefixOf`, `List.isInfixOf`.  The regular expressions of the
pattern table are embedded as a small regex AST with a backtracking
matcher whose result order mirrors the `re` module's priorities
(leftmost position first, left alternative first, greedy quantifiers
longest first).  The listening loop is modelled as a trace of events,
with the speech-recognition collaborator supplied as an oracle
(`IterEnv`): each blocking capture records the timeout it was invoked
with, `wakeAck` records a call to `on_wake_word_detected`.
-/

abbrev Str := List Char

/-- Python `str.lower()`. -/
def toLowerStr (s : Str) : Str := s.map Char.toLower

/-- Leading-whitespace part of Python `str.strip()`. -/
def trimLeft (s : Str) : Str := s.dropWhile Char.isWhitespace

/-- Trailing-whitespace part of Python `str.strip()`. -/
def trimRight (s : Str) : Str := (s.reverse.dropWhile Char.isWhitespace).reverse

/-- Python `str.strip()`. -/
def trim (s : Str) : Str := trimRight (trimLeft s)

/-- Python substring containment `needle in hay`. -/
def isSubstr (needle : Str) : Str → Bool
  | [] => needle.isEmpty
  | c :: t => needle.isPrefixOf (c :: t) || isSubstr needle t

/-- The apostrophe character, written via its code point. -/
def apos : Char := Char.ofNat 39

/-- `VoiceRecognizer.wake_word` / `NovaAssistant.wake_word`. -/
def wake_word : Str := "nova".data

/-- `VoiceRecognizer.alternative_wake_words`, in source order. -/
def alternative_wake_words : List Str :=
  ["hey nova".data, "hi nova".data, "hello nova".data, "hey nowa".data, "hi nowa".data]

/-- The canonical wake word followed by the alternative phrases: every
phrase the detector can strip, in the order the source checks them. -/
def wakeCandidates : List Str := wake_word :: alternative_wake_words

/-- The loop over `alternative_wake_words` inside
`VoiceRecognizer.detect_wake_word_and_command` (voice_recognition.py
lines 166-172): first phrase that is a prefix and leaves a non-empty
trimmed remainder wins; a phrase that matches but leaves an empty
remainder is skipped. -/
def detect_alt_command : List Str → Str → Option Str
  | [], _ => none
  | p :: ps, tl =>
    if p.isPrefixOf tl then
      if trim (tl.drop p.length) = [] then detect_alt_command ps tl
      else some (trim (tl.drop p.length))
    else detect_alt_command ps tl

/-- Pure text core of `VoiceRecognizer.detect_wake_word_and_command`
(voice_recognition.py lines 140-177), applied to the recognized text:
lower-case the text, try the canonical wake word as a prefix, then the
alternative phrases in order; return the trimmed remainder when it is
non-empty, `none` otherwise. -/
def detect_wake_word_and_command (text : Str) : Option Str :=
  if wake_word.isPrefixOf (toLowerStr text) then
    if trim ((toLowerStr text).drop wake_word.length) = [] then
      detect_alt_command alternative_wake_words (toLowerStr text)
    else some (trim ((toLowerStr text).drop wake_word.length))
  else detect_alt_command alternative_wake_words (toLowerStr text)

/-- Instrumented variant of `detect_alt_command` that also returns the
phrase that was stripped.  Same control flow as the source loop. -/
def detect_alt_command_phrase : List Str → Str → Option (Str × Str)
  | [], _ => none
  | p :: ps, tl =>
    if p.isPrefixOf tl then
      if trim (tl.drop p.length) = [] then detect_alt_command_phrase ps tl
      else some (p, trim (tl.drop p.length))
    else detect_alt_command_phrase ps tl

/-- Instrumented variant of `detect_wake_word_and_command` that also
returns the wake phrase that was stripped. -/
def detect_wake_word_and_command_phrase (text : Str) : Option (Str × Str) :=
  if wake_word.isPrefixOf (toLowerStr text) then
    if trim ((toLowerStr text).drop wake_word.length) = [] then
      detect_alt_command_phrase alternative_wake_words (toLowerStr text)
    else some (wake_word, trim ((toLowerStr text).drop wake_word.length))
  else detect_alt_command_phrase alternative_wake_words (toLowerStr text)

/-- Pure text core of `VoiceRecognizer.detect_wake_word` (lines 93-122):
the wake word or any alternative phrase occurs anywhere in the
lower-cased text. -/
def detect_wake_word_text (t : Str) : Bool :=
  isSubstr wake_word (toLowerStr t) ||
    alternative_wake_words.any (fun p => isSubstr p (toLowerStr t))

/-- `CommandProcessor._remove_wake_word` (command_processor.py lines
118-124): when the lower-cased text starts with `"nova"`, drop it, drop
the commas and whitespace that follow it (`re.sub` on `[,\s]*`), and
strip surrounding whitespace; otherwise return the text unchanged. -/
def remove_wake_word (t : Str) : Str :=
  if wake_word.isPrefixOf (toLowerStr t) then
    trim ((t.drop wake_word.length).dropWhile (fun c => c == ',' || c.isWhitespace))
  else t

/-- Captured named groups of a regex match (Python match object,
restricted to named groups, which is all the handlers consume). -/
abbrev Caps := List (String × Str)

/-- Regex AST covering exactly the constructs used by the pattern table:
literal alternations, `\s+`, `\s*`, `\s?`, an optional literal group,
and a greedy named `.*` capture. -/
inductive Regex where
  | lit (s : Str)
  | rseq (r1 r2 : Regex)
  | ralt (r1 r2 : Regex)
  | wsPlus
  | wsStar
  | wsOpt
  | opt (s : Str)
  | dotStar (name : String)

/-- Backtracking matcher: all ways to match `r` against a prefix of `s`,
as (remaining suffix, captures), in the `re` module's preference order
(left alternative first, greedy quantifiers longest first). -/
def rmatch : Regex → Str → List (Str × Caps)
  | .lit p, s => if p.isPrefixOf s then [(s.drop p.length, [])] else []
  | .rseq r1 r2, s =>
    (rmatch r1 s).flatMap fun sc =>
      (rmatch r2 sc.1).map fun sc2 => (sc2.1, sc.2 ++ sc2.2)
  | .ralt r1 r2, s => rmatch r1 s ++ rmatch r2 s
  | .wsPlus, s =>
    (List.range (s.takeWhile Char.isWhitespace).length).map
      (fun i => (s.drop ((s.takeWhile Char.isWhitespace).length - i), ([] : Caps)))
  | .wsStar, s =>
    (List.range ((s.takeWhile Char.isWhitespace).length + 1)).map
      (fun i => (s.drop ((s.takeWhile Char.isWhitespace).length - i), ([] : Caps)))
  | .wsOpt, s =>
    match s with
    | [] => [([], [])]
    | c :: rest => if c.isWhitespace then [(rest, []), (c :: rest, [])] else [(c :: rest, [])]
  | .opt p, s => if p.isPrefixOf s then [(s.drop p.length, []), (s, [])] else [(s, [])]
  | .dotStar name, s =>
    (List.range ((s.takeWhile (fun c => c != Char.ofNat 10)).length + 1)).map
      (fun i =>
        (s.drop ((s.takeWhile (fun c => c != Char.ofNat 10)).length - i),
         [(name, s.take ((s.takeWhile (fun c => c != Char.ofNat 10)).length - i))]))

/-- `re.search`: try the pattern at each start position, leftmost first;
at a position take the matcher's highest-priority result. -/
def search (r : Regex) : Str → Option Caps
  | [] =>
    match rmatch r [] with
    | sc :: _ => some sc.2
    | [] => none
  | c :: t =>
    match rmatch r (c :: t) with
    | sc :: _ => some sc.2
    | [] => search r t

/-- `(computer|pc|system)`, shared by the system-control patterns. -/
def sysTarget : Regex :=
  .ralt (.lit "computer".data) (.ralt (.lit "pc".data) (.lit "system".data))

/-- `CommandProcessor.command_patterns["app"]` (lines 53-58). -/
def p_app : List Regex :=
  [.rseq (.lit "open".data) (.rseq .wsPlus (.dotStar "app_name")),
   .rseq (.lit "launch".data) (.rseq .wsPlus (.dotStar "app_name")),
   .rseq (.lit "start".data) (.rseq .wsPlus (.dotStar "app_name")),
   .rseq (.lit "run".data) (.rseq .wsPlus (.dotStar "app_name"))]

/-- `CommandProcessor.command_patterns["system"]` (lines 59-66). -/
def p_system : List Regex :=
  [.rseq (.ralt (.lit "shutdown".data) (.lit "turn off".data)) (.rseq .wsPlus sysTarget),
   .rseq (.lit "restart".data) (.rseq .wsPlus sysTarget),
   .rseq (.lit "lock".data) (.rseq .wsPlus sysTarget),
   .rseq (.lit "sleep".data) (.rseq .wsPlus sysTarget),
   .rseq (.lit "hibernate".data) (.rseq .wsPlus sysTarget),
   .rseq (.lit "log".data) (.rseq .wsOpt (.lit "out".data))]

/-- `CommandProcessor.command_patterns["network"]` (lines 67-71). -/
def p_network : List Regex :=
  [.rseq (.lit "turn".data)
     (.rseq .wsPlus
       (.rseq (.ralt (.lit "on".data) (.lit "off".data))
         (.rseq .wsPlus
           (.ralt (.lit "wifi".data) (.ralt (.lit "wireless".data) (.lit "bluetooth".data)))))),
   .rseq (.ralt (.lit "show".data)
            (.ralt (.lit "what is".data) (.lit ("what".data ++ apos :: "s".data))))
     (.rseq .wsPlus (.rseq (.opt "my".data) (.rseq .wsStar (.lit "ip address".data)))),
   .rseq (.ralt (.lit "connect".data) (.lit "disconnect".data))
     (.rseq .wsPlus
       (.rseq (.ralt (.lit "to".data) (.lit "from".data)) (.rseq .wsPlus (.dotStar "network"))))]

/-- `CommandProcessor.command_patterns["utility"]` (lines 72-76). -/
def p_utility : List Regex :=
  [.rseq (.lit "open".data)
     (.rseq .wsPlus
       (.ralt (.lit "control panel".data)
         (.ralt (.lit "task manager".data) (.lit "file explorer".data)))),
   .rseq (.ralt (.lit "show".data) (.lit "list".data))
     (.rseq .wsPlus
       (.ralt (.lit "running processes".data)
         (.ralt (.lit "cpu usage".data) (.lit "memory usage".data)))),
   .rseq (.ralt (.lit "set".data) (.lit "adjust".data))
     (.rseq .wsPlus
       (.rseq (.lit "volume".data)
         (.rseq .wsPlus
           (.ralt (.lit "to".data)
             (.ralt (.lit "up".data) (.ralt (.lit "down".data) (.lit "mute".data)))))))]

/-- The pattern table in its fixed category (insertion) order. -/
def command_patterns : List (String × List Regex) :=
  [("app", p_app), ("system", p_system), ("network", p_network), ("utility", p_utility)]

/-- Inner loop of `CommandProcessor._categorize_command`: first pattern
of the category that matches anywhere in the text. -/
def findPattern : List Regex → Str → Option Caps
  | [], _ => none
  | p :: ps, s =>
    match search p s with
    | some m => some m
    | none => findPattern ps s

/-- Loop of `CommandProcessor._categorize_command` (lines 126-139) over
the pattern table. -/
def categorizeAux : List (String × List Regex) → Str → Option (String × Caps)
  | [], _ => none
  | (cat, ps) :: rest, s =>
    match findPattern ps s with
    | some m => some (cat, m)
    | none => categorizeAux rest s

/-- `CommandProcessor._categorize_command`: lower-case the text, scan the
pattern table in category order, return the first category whose
pattern matches together with the match. -/
def categorize_command (t : Str) : Option (String × Caps) :=
  categorizeAux command_patterns (toLowerStr t)

/-- `CommandProcessor.builtin_commands` (lines 35-49): keys paired with
the name of the bound handler method, in dict insertion order. -/
def builtin_commands : List (Str × String) :=
  [("hello".data, "handle_hello"), ("hi".data, "handle_hello"), ("hey".data, "handle_hello"),
   ("time".data, "handle_time"), ("date".data, "handle_date"), ("help".data, "handle_help"),
   ("who are you".data, "handle_who_are_you"),
   ("what can you do".data, "handle_what_can_you_do"),
   ("thank you".data, "handle_thank_you"), ("thanks".data, "handle_thank_you"),
   ("exit".data, "handle_exit"), ("quit".data, "handle_exit"),
   ("stop listening".data, "handle_stop_listening")]

/-- Keyword fallback list for the app category (line 103). -/
def app_keywords : List Str := ["open".data, "launch".data, "start".data, "run".data]

/-- Keyword fallback list for the system category (line 106). -/
def system_keywords : List Str :=
  ["shutdown".data, "restart".data, "lock".data, "sleep".data, "hibernate".data, "log out".data]

/-- Keyword fallback list for the network category (line 109). -/
def network_keywords : List Str :=
  ["wifi".data, "wireless".data, "bluetooth".data, "ip address".data, "network".data]

/-- Keyword fallback list for the utility category (line 112). -/
def utility_keywords : List Str :=
  ["control panel".data, "task manager".data, "file explorer".data,
   "processes".data, "volume".data]

/-- Observable routing decision of `CommandProcessor.process`:
which return path of the source function produced the response.
`empty` is the early "I didn't catch that. Can you please repeat?"
clarification return for falsy input, `builtin` records the key and
handler of the matched builtin intent, `category` the pattern-table
route, `keywordFallback` the keyword-containment route, and
`unrecognized` the final "I'm not sure how to handle ..." return. -/
inductive RouteResult where
  | empty
  | builtin (key : Str) (handler : String)
  | category (cat : String) (m : Caps)
  | keywordFallback (cat : String)
  | unrecognized
deriving DecidableEq

/-- `CommandProcessor.process` (lines 79-116), modelled as the routing
decision it takes for the given input text. -/
def process (t : Str) : RouteResult :=
  if t = [] then RouteResult.empty
  else
    match builtin_commands.find? (fun kh => isSubstr kh.1 (toLowerStr (remove_wake_word t))) with
    | some kh => RouteResult.builtin kh.1 kh.2
    | none =>
      match categorize_command (remove_wake_word t) with
      | some (cat, m) => RouteResult.category cat m
      | none =>
        if app_keywords.any (fun k => isSubstr k (toLowerStr (remove_wake_word t))) then
          RouteResult.keywordFallback "app"
        else if system_keywords.any (fun k => isSubstr k (toLowerStr (remove_wake_word t))) then
          RouteResult.keywordFallback "system"
        else if network_keywords.any (fun k => isSubstr k (toLowerStr (remove_wake_word t))) then
          RouteResult.keywordFallback "network"
        else if utility_keywords.any (fun k => isSubstr k (toLowerStr (remove_wake_word t))) then
          RouteResult.keywordFallback "utility"
        else RouteResult.unrecognized

/-- The fixed sentence returned by `format_list_items` for an empty
list: "I didn't find any items." -/
def no_items_message : Str := "I didn".data ++ apos :: "t find any items.".data

/-- `ResponseGenerator.format_list_items` (response_generator.py lines
82-91).  `pre` is the `intro` parameter; Python's
`", ".join(items[:-1]) + ", and " + items[-1]` becomes
`List.intercalate`/`dropLast`/`getLastD`. -/
def format_list_items (items : List Str) (pre : Str) : Str :=
  if items = [] then no_items_message
  else if items.length = 1 then pre ++ (' ' :: (items.headD [] ++ ".".data))
  else
    pre ++ (' ' ::
      ((List.intercalate (", ".data) items.dropLast ++
        (", and ".data ++ items.getLastD [])) ++ ".".data))

/-- Events observable from the listening loop: a blocking audio capture
with the timeout it was invoked with (`none` = no timeout), a call to
`on_wake_word_detected` (the wake acknowledgment), a spoken response,
and the `time.sleep(1)` backoff of the loop's exception handler. -/
inductive Event where
  | capture (timeout : Option Nat)
  | wakeAck
  | speak (text : Str)
  | backoff
deriving DecidableEq

/-- The apology spoken by `NovaAssistant.process_command`'s exception
handler: "I'm sorry, I encountered an error while processing your
request." -/
def apology_message : Str :=
  "I".data ++ apos :: "m sorry, I encountered an error while processing your request.".data

/-- Body of the `try` block of `NovaAssistant.process_command` (lines
148-157), with the outcome of `command_processor.process` (including
any category-handler exception) supplied as an oracle: a raised
exception propagates, a non-empty response is spoken. -/
def process_command_try (outcome : Except Str Str) : Except Str (List Event) :=
  match outcome with
  | .error e => .error e
  | .ok response => .ok (if response = [] then [] else [Event.speak response])

/-- `NovaAssistant.process_command` (lines 143-165): the `try`/`except`
converts any exception into the spoken apology; nothing propagates to
the caller. -/
def process_command (outcome : Except Str Str) : Except Str (List Event) :=
  match process_command_try outcome with
  | .ok evs => .ok evs
  | .error _ => .ok [Event.speak apology_message]

/-- Events of one `process_command` call as seen by the loop; the
`error` branch is the loop-level `except` backoff, reachable only if
`process_command` propagated an exception. -/
def pcEvents (o : Except Str Str) : List Event :=
  match process_command o with
  | .ok evs => evs
  | .error _ => [Event.backoff]

/-- Oracle inputs for one iteration of `listen_continuously`: the text
recognized by each of the up-to-three captures (`none` = timeout or
unintelligible audio), the results of the two mid-iteration
`stop_listening.is_set()` polls, and the outcome of
`command_processor.process` for the command processed this iteration. -/
structure IterEnv where
  r1 : Option Str
  s1 : Bool
  r2 : Option Str
  s2 : Bool
  r3 : Option Str
  h : Except Str Str

/-- `VoiceRecognizer.detect_wake_word_and_command` as the loop sees it:
one capture invoked with no timeout; when text was recognized but no
combined wake+command extracted, the method itself fires
`on_wake_word_detected` before returning `None` (lines 174-177). -/
def detect_wake_word_and_command_events (r1 : Option Str) : List Event × Option Str :=
  match r1 with
  | none => ([Event.capture none], none)
  | some t =>
    match detect_wake_word_and_command t with
    | some c => ([Event.capture none], some c)
    | none => ([Event.capture none, Event.wakeAck], none)

/-- The wake-detected branch of the loop (assistant.py lines 115-137):
`detect_wake_word` performed one capture with no timeout; if the wake
word was heard and stop is not set, the loop fires
`on_wake_word_detected`, then `listen_for_command` fires
`on_wake_word_detected` again (voice_recognition.py line 130) and
captures with its default 5-second timeout; a recognized command is
processed. -/
def followUp (env : IterEnv) : List Event :=
  let wake := match env.r2 with
    | none => false
    | some t => detect_wake_word_text t
  if wake && !env.s2 then
    [Event.capture none] ++ [Event.wakeAck] ++ [Event.wakeAck, Event.capture (some 5)] ++
      (match env.r3 with
       | some _ => pcEvents env.h
       | none => [])
  else [Event.capture none]

/-- One iteration of `NovaAssistant.listen_continuously` (lines 98-141):
the combined wake+command capture first; if it yields a command and
stop is not set, process it and continue; otherwise fall through to
wake-word-only detection and the follow-up capture. -/
def iterationEvents (env : IterEnv) : List Event :=
  match detect_wake_word_and_command_events env.r1 with
  | (ev1, some _) =>
    if !env.s1 then ev1 ++ pcEvents env.h else ev1 ++ followUp env
  | (ev1, none) => ev1 ++ followUp env

/-- `NovaAssistant.listen_continuously`'s `while not stop_listening`
loop over a finite observation window of per-iteration oracles; the
Bool is the guard's `stop_listening.is_set()` poll. -/
def listenLoop : List (Bool × IterEnv) → List Event
  | [] => []
  | (g, env) :: rest => if g then [] else iterationEvents env ++ listenLoop rest

-- ### Helper lemmas on the string model

theorem prefixOf_append (P : Str) : ∀ (Q X : Str),
    P.isPrefixOf (Q ++ X) =
      (P.isPrefixOf Q || (Q.isPrefixOf P && (P.drop Q.length).isPrefixOf X)) := by
  induction P with
  | nil => intro Q X; simp [List.isPrefixOf]
  | cons a as ih =>
    intro Q X
    cases Q with
    | nil => simp [List.isPrefixOf]
    | cons b bs =>
      by_cases hab : a = b
      · subst hab
        simp [List.isPrefixOf, ih bs X]
      · have h1 : (a == b) = false := by simp [hab]
        have h2 : (b == a) = false := by simp [Ne.symm hab]
        simp [List.isPrefixOf, h1, h2]

theorem not_prefixOf_append {P Q : Str} (X : Str)
    (h1 : P.isPrefixOf Q = false) (h2 : Q.isPrefixOf P = false) :
    P.isPrefixOf (Q ++ X) = false := by
  rw [prefixOf_append, h1, h2]
  rfl

theorem prefixOf_refl (P : Str) : P.isPrefixOf P = true := by
  induction P with
  | nil => rfl
  | cons a as ih => simp [List.isPrefixOf, ih]

theorem prefixOf_append_self (P X : Str) : P.isPrefixOf (P ++ X) = true := by
  rw [prefixOf_append, prefixOf_refl]
  rfl

theorem prefixOf_total : ∀ (t p q : Str), p.isPrefixOf t = true → q.isPrefixOf t = true →
    p.isPrefixOf q = true ∨ q.isPrefixOf p = true := by
  intro t
  induction t with
  | nil =>
    intro p q hp _
    cases p with
    | nil => left; simp [List.isPrefixOf]
    | cons a as => simp [List.isPrefixOf] at hp
  | cons c t ih =>
    intro p q hp hq
    cases p with
    | nil => left; simp [List.isPrefixOf]
    | cons a as =>
      cases q with
      | nil => right; simp [List.isPrefixOf]
      | cons b bs =>
        simp only [List.isPrefixOf, Bool.and_eq_true, beq_iff_eq] at hp hq
        obtain ⟨hac, has⟩ := hp
        obtain ⟨hbc, hbs⟩ := hq
        subst hac
        subst hbc
        rcases ih as bs has hbs with h | h
        · left; simp [List.isPrefixOf, h]
        · right; simp [List.isPrefixOf, h]

theorem prefixOf_length_le : ∀ (p q : Str), p.isPrefixOf q = true → p.length ≤ q.length := by
  intro p
  induction p with
  | nil => intro q _; simp
  | cons a as ih =>
    intro q hp
    cases q with
    | nil => simp [List.isPrefixOf] at hp
    | cons b bs =>
      simp only [List.isPrefixOf, Bool.and_eq_true] at hp
      have := ih bs hp.2
      simp only [List.length_cons]
      omega

theorem trim_space_cons (C : Str) : trim (' ' :: C) = trim C := by
  have hsp : Char.isWhitespace ' ' = true := by decide
  simp [trim, trimLeft, List.dropWhile, hsp]

theorem detect_alt_strip : ∀ (ps : List Str) (W C : Str), W ∈ ps →
    (∀ q ∈ ps, q.isPrefixOf (W ++ ' ' :: C) = true → q = W) →
    trim C = C → C ≠ [] →
    detect_alt_command ps (W ++ ' ' :: C) = some C := by
  intro ps
  induction ps with
  | nil => intro W C h; simp at h
  | cons p ps ih =>
    intro W C hmem huniq htrim hne
    by_cases hp : p.isPrefixOf (W ++ ' ' :: C) = true
    · have hpW : p = W := huniq p (List.mem_cons_self p ps) hp
      subst hpW
      have hdrop : (p ++ ' ' :: C).drop p.length = ' ' :: C := List.drop_left p (' ' :: C)
      simp only [detect_alt_command, hp, if_true, hdrop, trim_space_cons, htrim]
      simp [hne]
    · have hp' : p.isPrefixOf (W ++ ' ' :: C) = false := by
        cases h : p.isPrefixOf (W ++ ' ' :: C) with
        | true => exact absurd h hp
        | false => rfl
      have hW : W ∈ ps := by
        rcases List.mem_cons.mp hmem with h | h
        · subst h; rw [prefixOf_append_self] at hp'; cases hp'
        · exact h
      simp only [detect_alt_command, hp', Bool.false_eq_true, if_false]
      exact ih W C hW (fun q hq => huniq q (List.mem_cons_of_mem p hq)) htrim hne

theorem detect_alt_phrase_sound : ∀ (ps : List Str) (tl p c : Str),
    detect_alt_command_phrase ps tl = some (p, c) → p ∈ ps ∧ p.isPrefixOf tl = true := by
  intro ps
  induction ps with
  | nil => intro tl p c h; simp [detect_alt_command_phrase] at h
  | cons q ps ih =>
    intro tl p c h
    by_cases hq : q.isPrefixOf tl = true
    · by_cases he : trim (tl.drop q.length) = []
      · simp only [detect_alt_command_phrase, hq, if_true, he] at h
        have := ih tl p c (by simpa using h)
        exact ⟨List.mem_cons_of_mem q this.1, this.2⟩
      · simp only [detect_alt_command_phrase, hq, if_true, if_neg he] at h
        have hpq : q = p := by
          have := h
          simp only [Option.some.injEq, Prod.mk.injEq] at this
          exact this.1
        subst hpq
        exact ⟨List.mem_cons_self q ps, hq⟩
    · have hq' : q.isPrefixOf tl = false := by
        cases hh : q.isPrefixOf tl with
        | true => exact absurd hh hq
        | false => rfl
      simp only [detect_alt_command_phrase, hq', Bool.false_eq_true, if_false] at h
      have := ih tl p c h
      exact ⟨List.mem_cons_of_mem q this.1, this.2⟩

theorem detect_alt_phrase_link : ∀ (ps : List Str) (tl : Str),
    detect_alt_command ps tl = (detect_alt_command_phrase ps tl).map Prod.snd := by
  intro ps
  induction ps with
  | nil => intro tl; rfl
  | cons q ps ih =>
    intro tl
    by_cases hq : q.isPrefixOf tl = true
    · by_cases he : trim (tl.drop q.length) = []
      · simp [detect_alt_command, detect_alt_command_phrase, hq, he, ih]
      · simp [detect_alt_command, detect_alt_command_phrase, hq, he]
    · have hq' : q.isPrefixOf tl = false := by
        cases hh : q.isPrefixOf tl with
        | true => exact absurd hh hq
        | false => rfl
      simp [detect_alt_command, detect_alt_command_phrase, hq', ih]

theorem find_first_take {α : Type} (p : α → Bool) :
    ∀ (l : List α) (j : Nat) (a : α), l[j]? = some a → p a = true →
      (∀ b ∈ l.take j, p b = false) → l.find? p = some a := by
  intro l
  induction l with
  | nil => intro j a h; simp at h
  | cons x xs ih =>
    intro j a hj hpa htake
    cases j with
    | zero =>
      simp only [List.getElem?_cons_zero, Option.some.injEq] at hj
      subst hj
      exact List.find?_cons_of_pos xs hpa
    | succ j =>
      have hx : p x = false := htake x (by simp [List.take])
      rw [List.find?_cons_of_neg xs (by simp [hx])]
      exact ih j a (by simpa using hj) hpa
        (fun b hb => htake b (by simp [List.take]; right; exact hb))

-- ### Claim theorems

/-- Claim C1: for every wake phrase `W` in the alternative wake-phrase
list and every non-empty (already lower-case, trimmed) command text
`C`, `detect_wake_word_and_command` applied to `W ++ " " ++ C` returns
exactly `C` — the phrase is stripped exactly once and the remainder
trimmed; moreover the instrumented variant agrees with the plain one,
and whenever a phrase `p` is stripped, every wake-phrase candidate that
is a prefix of the utterance is no longer than `p`, i.e. the longest
matching prefix is the one stripped. -/
theorem alt_wake_phrase_stripping :
    (∀ W ∈ alternative_wake_words, ∀ C : Str, toLowerStr C = C → trim C = C → C ≠ [] →
      detect_wake_word_and_command (W ++ ' ' :: C) = some C) ∧
    (∀ t : Str, detect_wake_word_and_command t =
      (detect_wake_word_and_command_phrase t).map Prod.snd) ∧
    (∀ t p c : Str, detect_wake_word_and_command_phrase t = some (p, c) →
      ∀ q ∈ wakeCandidates, q.isPrefixOf (toLowerStr t) = true → q.length ≤ p.length) := by
  have factLower : ∀ W ∈ alternative_wake_words, toLowerStr W = W := by decide
  have factNova : ∀ W ∈ alternative_wake_words,
      wake_word.isPrefixOf W = false ∧ W.isPrefixOf wake_word = false := by decide
  have factPair : ∀ W ∈ alternative_wake_words, ∀ q ∈ alternative_wake_words,
      q = W ∨ (q.isPrefixOf W = false ∧ W.isPrefixOf q = false) := by decide
  have factCand : ∀ p ∈ wakeCandidates, ∀ q ∈ wakeCandidates,
      p.isPrefixOf q = true → p = q := by decide
  refine ⟨?_, ?_, ?_⟩
  · intro W hW C hlow htrim hne
    have htl : toLowerStr (W ++ ' ' :: C) = W ++ ' ' :: C := by
      have h1 : Char.toLower ' ' = ' ' := by decide
      simp only [toLowerStr, List.map_append, List.map_cons]
      rw [show List.map Char.toLower W = W from factLower W hW, h1,
        show List.map Char.toLower C = C from hlow]
    have hnova : wake_word.isPrefixOf (W ++ ' ' :: C) = false :=
      not_prefixOf_append (' ' :: C) (factNova W hW).1 (factNova W hW).2
    have huniq : ∀ q ∈ alternative_wake_words,
        q.isPrefixOf (W ++ ' ' :: C) = true → q = W := by
      intro q hq hpre
      rcases factPair W hW q hq with h | ⟨f1, f2⟩
      · exact h
      · rw [not_prefixOf_append (' ' :: C) f1 f2] at hpre
        cases hpre
    simp only [detect_wake_word_and_command, htl, hnova, Bool.false_eq_true, if_false]
    exact detect_alt_strip alternative_wake_words W C hW huniq htrim hne
  · intro t
    by_cases h1 : wake_word.isPrefixOf (toLowerStr t) = true
    · by_cases h2 : trim ((toLowerStr t).drop wake_word.length) = []
      · simp [detect_wake_word_and_command, detect_wake_word_and_command_phrase, h1, h2,
          detect_alt_phrase_link]
      · simp [detect_wake_word_and_command, detect_wake_word_and_command_phrase, h1, h2]
    · have h1' : wake_word.isPrefixOf (toLowerStr t) = false := by
        cases hh : wake_word.isPrefixOf (toLowerStr t) with
        | true => exact absurd hh h1
        | false => rfl
      simp [detect_wake_word_and_command, detect_wake_word_and_command_phrase, h1',
        detect_alt_phrase_link]
  · intro t p c hsome q hq hqpre
    have hp : p ∈ wakeCandidates ∧ p.isPrefixOf (toLowerStr t) = true := by
      by_cases h1 : wake_word.isPrefixOf (toLowerStr t) = true
      · by_cases h2 : trim ((toLowerStr t).drop wake_word.length) = []
        · simp only [detect_wake_word_and_command_phrase, h1, if_true, h2] at hsome
          have := detect_alt_phrase_sound alternative_wake_words (toLowerStr t) p c
            (by simpa using hsome)
          exact ⟨List.mem_cons_of_mem _ this.1, this.2⟩
        · simp only [detect_wake_word_and_command_phrase, h1, if_true, if_neg h2,
            Option.some.injEq, Prod.mk.injEq] at hsome
          obtain ⟨hpw, _⟩ := hsome
          subst hpw
          exact ⟨List.mem_cons_self _ _, h1⟩
      · have h1' : wake_word.isPrefixOf (toLowerStr t) = false := by
          cases hh : wake_word.isPrefixOf (toLowerStr t) with
          | true => exact absurd hh h1
          | false => rfl
        simp only [detect_wake_word_and_command_phrase, h1', Bool.false_eq_true,
          if_false] at hsome
        have := detect_alt_phrase_sound alternative_wake_words (toLowerStr t) p c hsome
        exact ⟨List.mem_cons_of_mem _ this.1, this.2⟩
    rcases prefixOf_total (toLowerStr t) q p hqpre hp.2 with h | h
    · exact prefixOf_length_le q p h
    · have := factCand p hp.1 q hq h
      subst this
      exact Nat.le_refl _

/-- Witness for C1 at the concrete utterance "hey nova open chrome". -/
theorem alt_wake_phrase_stripping_witness :
    detect_wake_word_and_command ("hey nova".data ++ ' ' :: "open chrome".data) =
      some ("open chrome".data) ∧
    ("hey nova".data).length ≤ ("hey nova".data).length := by
  constructor
  · exact alt_wake_phrase_stripping.1 ("hey nova".data) (by decide) ("open chrome".data)
      (by decide) (by decide) (by decide)
  · exact alt_wake_phrase_stripping.2.2 ("hey nova open chrome".data) ("hey nova".data)
      ("open chrome".data) (by decide) ("hey nova".data) (by decide) (by decide)

/-- Claim C2: when no builtin intent matched, the pattern table is
scanned in the fixed category order app, system, network, utility; the
first category whose pattern matches wins and its captured slots are
returned; a text that matches no category yields `none`; and the
concrete text "open task manager", which matches both an app pattern
and a utility pattern, resolves to the app category with the captured
`app_name` slot. -/
theorem category_order_priority :
    (∀ (t : Str) (m : Caps), findPattern p_app (toLowerStr t) = some m →
      categorize_command t = some ("app", m)) ∧
    (∀ (t : Str) (m : Caps), findPattern p_app (toLowerStr t) = none →
      findPattern p_system (toLowerStr t) = some m →
      categorize_command t = some ("system", m)) ∧
    (∀ (t : Str) (m : Caps), findPattern p_app (toLowerStr t) = none →
      findPattern p_system (toLowerStr t) = none →
      findPattern p_network (toLowerStr t) = some m →
      categorize_command t = some ("network", m)) ∧
    (∀ (t : Str) (m : Caps), findPattern p_app (toLowerStr t) = none →
      findPattern p_system (toLowerStr t) = none →
      findPattern p_network (toLowerStr t) = none →
      findPattern p_utility (toLowerStr t) = some m →
      categorize_command t = some ("utility", m)) ∧
    (∀ t : Str, findPattern p_app (toLowerStr t) = none →
      findPattern p_system (toLowerStr t) = none →
      findPattern p_network (toLowerStr t) = none →
      findPattern p_utility (toLowerStr t) = none →
      categorize_command t = none) ∧
    (∃ m, findPattern p_app (toLowerStr ("open task manager".data)) = some m) ∧
    (∃ m, findPattern p_utility (toLowerStr ("open task manager".data)) = some m) ∧
    categorize_command ("open task manager".data) =
      some ("app", [("app_name", "task manager".data)]) := by
  refine ⟨?_, ?_, ?_, ?_, ?_, ⟨[("app_name", "task manager".data)], by decide⟩,
    ⟨[], by decide⟩, by decide⟩
  · intro t m h
    simp [categorize_command, command_patterns, categorizeAux, h]
  · intro t m h1 h2
    simp [categorize_command, command_patterns, categorizeAux, h1, h2]
  · intro t m h1 h2 h3
    simp [categorize_command, command_patterns, categorizeAux, h1, h2, h3]
  · intro t m h1 h2 h3 h4
    simp [categorize_command, command_patterns, categorizeAux, h1, h2, h3, h4]
  · intro t h1 h2 h3 h4
    simp [categorize_command, command_patterns, categorizeAux, h1, h2, h3, h4]

/-- Witness for C2: "lock computer" matches no app pattern and the
system pattern `lock\s+(computer|pc|system)`, so it is categorized as
system. -/
theorem category_order_priority_witness :
    categorize_command ("lock computer".data) = some ("system", []) :=
  category_order_priority.2.1 ("lock computer".data) [] (by decide) (by decide)

/-- Claim C3: whenever the lower-cased (wake-stripped) command text
contains the `j`-th builtin key and none of the earlier keys in list
order, `process` resolves to that entry's handler — in particular no
category-pattern routing and no keyword fallback is consulted, since
the result is the `builtin` route. -/
theorem builtin_first_match (t : Str) (j : Nat) (key : Str) (handler : String)
    (hj : builtin_commands[j]? = some (key, handler))
    (hkey : isSubstr key (toLowerStr (remove_wake_word t)) = true)
    (hfirst : ∀ kh ∈ builtin_commands.take j,
      isSubstr kh.1 (toLowerStr (remove_wake_word t)) = false) :
    process t = RouteResult.builtin key handler := by
  have hmem : (key, handler) ∈ builtin_commands := List.getElem?_mem hj
  have ht : t ≠ [] := by
    intro h
    subst h
    have h0 : remove_wake_word ([] : Str) = [] := by decide
    rw [h0] at hkey
    have hall : ∀ kh ∈ builtin_commands, isSubstr kh.1 (toLowerStr []) = false := by decide
    rw [hall (key, handler) hmem] at hkey
    cases hkey
  have hfind : builtin_commands.find?
      (fun kh => isSubstr kh.1 (toLowerStr (remove_wake_word t))) = some (key, handler) :=
    find_first_take _ builtin_commands j (key, handler) hj hkey hfirst
  simp [process, ht, hfind]

/-- Witness for C3 at "what time is it": the first three keys (hello,
hi, hey) do not occur in the text, "time" does, so the time handler is
selected. -/
theorem builtin_first_match_witness :
    process ("what time is it".data) = RouteResult.builtin ("time".data) "handle_time" :=
  builtin_first_match ("what time is it".data) 3 ("time".data) "handle_time"
    (by decide) (by decide) (by decide)

/-- Claim C4 (amended): an input that is empty before wake-word
stripping resolves directly to the clarification response
(`RouteResult.empty`); an input that becomes empty only after stripping
is still never routed to a category handler or keyword fallback, but it
falls through to the generic unrecognized fallback rather than the
clarification, because the source checks emptiness before stripping. -/
theorem empty_command_never_categorized :
    process ([] : Str) = RouteResult.empty ∧
    ∀ t : Str, remove_wake_word t = [] →
      (∀ cat m, process t ≠ RouteResult.category cat m) ∧
      (∀ cat, process t ≠ RouteResult.keywordFallback cat) ∧
      (process t = RouteResult.empty ∨ process t = RouteResult.unrecognized) := by
  constructor
  · rfl
  · intro t h
    by_cases ht : t = []
    · subst ht
      have hp : process ([] : Str) = RouteResult.empty := rfl
      refine ⟨?_, ?_, Or.inl hp⟩
      · intro cat m hc
        rw [hp] at hc
        exact RouteResult.noConfusion hc
      · intro cat hc
        rw [hp] at hc
        exact RouteResult.noConfusion hc
    · have hp : process t = RouteResult.unrecognized := by
        unfold process
        rw [if_neg ht, h]
        rfl
      refine ⟨?_, ?_, Or.inr hp⟩
      · intro cat m hc
        rw [hp] at hc
        exact RouteResult.noConfusion hc
      · intro cat hc
        rw [hp] at hc
        exact RouteResult.noConfusion hc

/-- Witness for C4 (amended) at the input "nova", which strips to the
empty command. -/
theorem empty_command_never_categorized_witness :
    process ("nova".data) = RouteResult.empty ∨ process ("nova".data) = RouteResult.unrecognized :=
  (empty_command_never_categorized.2 ("nova".data) (by decide)).2.2

/-- Counterexample to C4 as stated: "nova" is empty after wake-word
stripping, yet `process` does not return the clarification response
directly — it falls through to the final unrecognized-fallback return
("I'm not sure how to handle ...") of the source. -/
theorem empty_after_strip_gets_fallback :
    remove_wake_word ("nova".data) = [] ∧
    process ("nova".data) = RouteResult.unrecognized ∧
    RouteResult.unrecognized ≠ RouteResult.empty := by
  refine ⟨by decide, by decide, by decide⟩

theorem pcEvents_no_capture (o : Except Str Str) (to' : Option Nat) :
    Event.capture to' ∉ pcEvents o := by
  cases o with
  | ok r =>
    by_cases hr : r = []
    · simp [pcEvents, process_command, process_command_try, hr]
    · simp [pcEvents, process_command, process_command_try, hr]
  | error e => simp [pcEvents, process_command, process_command_try]

theorem followUp_capture_timeout (env : IterEnv) (t : Nat)
    (hm : Event.capture (some t) ∈ followUp env) : t = 5 := by
  rcases env with ⟨r1, s1, r2, s2, r3, h⟩
  cases r2 with
  | none => simp [followUp] at hm
  | some u =>
    cases hdet : detect_wake_word_text u with
    | false => simp [followUp, hdet] at hm
    | true =>
      cases s2 with
      | true => simp [followUp, hdet] at hm
      | false =>
        cases r3 with
        | none =>
          simp [followUp, hdet] at hm
          exact hm
        | some c =>
          simp [followUp, hdet] at hm
          rcases hm with hm | hm
          · exact hm
          · exact absurd hm (pcEvents_no_capture h (some t))

/-- Claim C5 (amended): the stop flag is polled by the loop guard once
per iteration before the iteration's first blocking capture (a guard
that reads true prevents any further capture), and the only capture
invoked with a finite timeout is the 5-second follow-up command
capture; every iteration's first capture — the wake-word capture — is
invoked with no timeout at all, so exit within one finite
capture-timeout window is not guaranteed. -/
theorem stop_polling_and_capture_timeouts :
    (∀ (env : IterEnv) (rest : List (Bool × IterEnv)),
      listenLoop ((true, env) :: rest) = []) ∧
    (∀ env : IterEnv, (iterationEvents env).head? = some (Event.capture none)) ∧
    (∀ (env : IterEnv) (t : Nat), Event.capture (some t) ∈ iterationEvents env → t = 5) := by
  refine ⟨fun env rest => by simp [listenLoop], ?_, ?_⟩
  · intro env
    rcases env with ⟨r1, s1, r2, s2, r3, h⟩
    cases r1 with
    | none => simp [iterationEvents, detect_wake_word_and_command_events]
    | some t =>
      cases hd : detect_wake_word_and_command t with
      | none =>
        simp [iterationEvents, detect_wake_word_and_command_events, hd]
      | some c =>
        cases s1 with
        | false => simp [iterationEvents, detect_wake_word_and_command_events, hd]
        | true => simp [iterationEvents, detect_wake_word_and_command_events, hd]
  · intro env t hmem
    rcases env with ⟨r1, s1, r2, s2, r3, h⟩
    cases r1 with
    | none =>
      simp only [iterationEvents, detect_wake_word_and_command_events,
        List.singleton_append, List.mem_cons] at hmem
      rcases hmem with h1 | h1
      · cases h1
      · exact followUp_capture_timeout _ t h1
    | some u =>
      cases hd : detect_wake_word_and_command u with
      | none =>
        simp only [iterationEvents, detect_wake_word_and_command_events, hd,
          List.cons_append, List.nil_append, List.mem_cons] at hmem
        rcases hmem with h1 | h1 | h1
        · cases h1
        · cases h1
        · exact followUp_capture_timeout _ t h1
      | some c =>
        cases s1 with
        | false =>
          simp only [iterationEvents, detect_wake_word_and_command_events, hd,
            Bool.not_false, if_true, List.singleton_append, List.mem_cons] at hmem
          rcases hmem with h1 | h1
          · cases h1
          · exact absurd h1 (pcEvents_no_capture h (some t))
        | true =>
          simp only [iterationEvents, detect_wake_word_and_command_events, hd,
            Bool.not_true, Bool.false_eq_true, if_false, List.singleton_append,
            List.mem_cons] at hmem
          rcases hmem with h1 | h1
          · cases h1
          · exact followUp_capture_timeout _ t h1

/-- Witness for C5 (amended): a set guard stops the loop before any
capture, and the 5-second follow-up capture is the finite one. -/
theorem stop_polling_and_capture_timeouts_witness :
    listenLoop [(true, ⟨none, false, none, false, none, Except.ok []⟩)] = [] ∧ (5 : Nat) = 5 := by
  constructor
  · exact stop_polling_and_capture_timeouts.1 ⟨none, false, none, false, none, Except.ok []⟩ []
  · exact stop_polling_and_capture_timeouts.2.2
      ⟨some ("nova".data), false, some ("nova".data), false, some ("open chrome".data),
        Except.ok []⟩ 5 (by decide)

/-- Counterexample to C5 as stated: an iteration in which nothing is
recognized performs two blocking captures, both invoked with no
timeout — so it is false that every blocking capture performed by the
loop has a finite timeout, and observing `stop()` within one
capture-timeout window is not guaranteed. -/
theorem wake_capture_without_timeout :
    iterationEvents ⟨none, false, none, false, none, Except.ok []⟩ =
      [Event.capture none, Event.capture none] := by
  decide

/-- Claim C6: in a wake cycle in which only the wake word is heard
("nova" recognized by the combined capture, "nova" again by the
wake-word capture), the wake acknowledgment `on_wake_word_detected` is
emitted three times before the follow-up 5-second command capture (once
by `detect_wake_word_and_command`'s fall-through, once by the loop,
once by `listen_for_command`) — not exactly once as the claim and §4.2
of the specification require. -/
theorem wake_ack_emitted_thrice :
    ((iterationEvents
        ⟨some ("nova".data), false, some ("nova".data), false,
          some ("open chrome".data), Except.ok ("done".data)⟩).takeWhile
      (fun e => e != Event.capture (some 5))).count Event.wakeAck = 3 := by
  decide

/-- Claim C7 (amended): `_remove_wake_word` leaves any text that does
not start with the wake word unchanged, hence stripping is idempotent
on every input whose once-stripped result does not itself begin with
the wake word; it strips one leading wake word together with the commas
and whitespace that immediately follow it and trims surrounding
whitespace, while trailing punctuation not adjacent to the wake word is
preserved. -/
theorem remove_wake_word_conditional_idempotence :
    (∀ t : Str, wake_word.isPrefixOf (toLowerStr t) = false → remove_wake_word t = t) ∧
    (∀ t : Str, wake_word.isPrefixOf (toLowerStr (remove_wake_word t)) = false →
      remove_wake_word (remove_wake_word t) = remove_wake_word t) ∧
    remove_wake_word ("nova, open chrome".data) = "open chrome".data ∧
    remove_wake_word ("nova open chrome.".data) = "open chrome.".data := by
  have h1 : ∀ t : Str, wake_word.isPrefixOf (toLowerStr t) = false → remove_wake_word t = t := by
    intro t h
    simp [remove_wake_word, h]
  exact ⟨h1, fun t h => h1 (remove_wake_word t) h, by decide, by decide⟩

/-- Witness for C7 (amended) at "open chrome" and at the once-stripped
"nova nova open chrome". -/
theorem remove_wake_word_conditional_idempotence_witness :
    remove_wake_word ("open chrome".data) = "open chrome".data ∧
    remove_wake_word (remove_wake_word ("open chrome".data)) =
      remove_wake_word ("open chrome".data) := by
  constructor
  · exact remove_wake_word_conditional_idempotence.1 ("open chrome".data) (by decide)
  · exact remove_wake_word_conditional_idempotence.2.1 ("open chrome".data) (by decide)

/-- Counterexample to C7 as stated: stripping "nova nova open chrome."
once yields "nova open chrome." but stripping twice yields
"open chrome." — the second application removes a further leading wake
word, so stripping is not idempotent on every input; the preserved
trailing period also shows trailing punctuation is not trimmed. -/
theorem remove_wake_word_twice_differs :
    remove_wake_word ("nova nova open chrome.".data) = "nova open chrome.".data ∧
    remove_wake_word (remove_wake_word ("nova nova open chrome.".data)) = "open chrome.".data ∧
    remove_wake_word (remove_wake_word ("nova nova open chrome.".data)) ≠
      remove_wake_word ("nova nova open chrome.".data) := by
  refine ⟨by decide, by decide, by decide⟩

/-- Claim C8: a category-handler failure surfacing from
`command_processor.process` is caught by `process_command` and
converted into the spoken apology; `process_command` never propagates
an exception to the listening loop (its result is always `ok`), and the
loop's trace continues with the next iteration's capture after a
failing command, as the concrete two-iteration trace shows. -/
theorem handler_failure_contained :
    (∀ e : Str, process_command (Except.error e) = Except.ok [Event.speak apology_message]) ∧
    (∀ o : Except Str Str, ∃ evs, process_command o = Except.ok evs) ∧
    listenLoop
        [(false, ⟨some ("nova open chrome".data), false, none, false, none,
            Except.error ("handler failure".data)⟩),
         (false, ⟨none, false, none, false, none, Except.ok []⟩)] =
      [Event.capture none, Event.speak apology_message,
       Event.capture none, Event.capture none] := by
  refine ⟨fun e => rfl, ?_, by decide⟩
  intro o
  cases o with
  | ok r =>
    exact ⟨if r = [] then [] else [Event.speak r], rfl⟩
  | error e => exact ⟨[Event.speak apology_message], rfl⟩

/-- Claim C9: `format_list_items` returns the fixed
"I didn't find any items." sentence for an empty list,
"`<intro>` `<item>`." for a one-element list, and for two or more items
the comma-joined items with ", and " before the last item; in
particular `["a","b","c"]` yields "`<intro>` a, b, and c.". -/
theorem format_list_items_spec :
    (∀ pre : Str, format_list_items [] pre = no_items_message) ∧
    (∀ (pre x : Str), format_list_items [x] pre = pre ++ (' ' :: (x ++ ".".data))) ∧
    (∀ (pre y : Str) (xs : List Str), xs ≠ [] →
      format_list_items (xs ++ [y]) pre =
        pre ++ (' ' ::
          ((List.intercalate (", ".data) xs ++ (", and ".data ++ y)) ++ ".".data))) ∧
    (∀ pre : Str, format_list_items ["a".data, "b".data, "c".data] pre =
      pre ++ (' ' :: "a, b, and c.".data)) := by
  refine ⟨fun pre => rfl, fun pre x => rfl, ?_, ?_⟩
  · intro pre y xs hxs
    have h1 : xs ++ [y] ≠ [] := by simp
    have h2 : ¬((xs ++ [y]).length = 1) := by
      simp only [List.length_append, List.length_singleton]
      intro h
      exact hxs (List.length_eq_zero.mp (by omega))
    simp only [format_list_items, if_neg h1, if_neg h2, List.dropLast_concat,
      List.getLastD_concat]
  · intro pre
    have h1 : (["a".data, "b".data, "c".data] : List Str) ≠ [] := by simp
    have h2 : ¬((["a".data, "b".data, "c".data] : List Str).length = 1) := by decide
    simp only [format_list_items, if_neg h1, if_neg h2]
    have h3 : ((List.intercalate (", ".data)
        (["a".data, "b".data, "c".data] : List Str).dropLast ++
          (", and ".data ++ (["a".data, "b".data, "c".data] : List Str).getLastD [])) ++
        ".".data) = "a, b, and c.".data := by decide
    rw [h3]

/-- Witness for C9 at a three-element list with a concrete intro. -/
theorem format_list_items_spec_witness :
    format_list_items (["a".data, "b".data] ++ ["c".data]) ("Found:".data) =
      "Found:".data ++ (' ' ::
        ((List.intercalate (", ".data) ["a".data, "b".data] ++
          (", and ".data ++ "c".data)) ++ ".".data)) :=
  format_list_items_spec.2.2.1 ("Found:".data) ("c".data) ["a".data, "b".data] (by decide)

/-- Claim C10: wake-word stripping removes only the exact canonical
prefix "nova" — any text not starting with it is returned unchanged —
and builtin matching is raw substring containment checked before
category routing: "shutdown this computer" (which contains "hi" inside
"this") and "hey nova open chrome" (which retains "hey" because the
alternate phrase is not stripped) both resolve to the greeting handler
instead of being routed to a category. -/
theorem builtin_substring_shadowing :
    (∀ t : Str, wake_word.isPrefixOf (toLowerStr t) = false → remove_wake_word t = t) ∧
    process ("shutdown this computer".data) =
      RouteResult.builtin ("hi".data) "handle_hello" ∧
    process ("hey nova open chrome".data) =
      RouteResult.builtin ("hey".data) "handle_hello" := by
  refine ⟨?_, by decide, by decide⟩
  intro t h
  simp [remove_wake_word, h]

/-- Witness for C10 at "open chrome", which does not start with the
wake word and is left unchanged. -/
theorem builtin_substring_shadowing_witness :
    remove_wake_word ("open chrome".data) = "open chrome".data :=
  builtin_substring_shadowing.1 ("open chrome".data) (by decide)
